import Mathlib

/-!
Verification of the autonomous self-healing subsystem of the Indus ERP
backend: circuit breaker, distributed idempotency registry, incident
manager, invariant drift scorer, health score engine, safe-mode
middleware, sliding-window rate limiter and audit-chain verifier.

Each definition is a shallow embedding of the corresponding TypeScript
function; database reads and clock values appear as explicit inputs,
promise rejection as `Option`/flags, and JavaScript numbers as `ℤ`/`ℚ`
(`Math.log10` as `Real.logb 10`, `Math.round` as `round`).
-/

namespace SelfHealingCore

/-- `CircuitState` of `self-healing-core.ts`. -/
inductive CircuitState
  | CLOSED
  | OPEN
  | HALF_OPEN
deriving DecidableEq, Repr

/-- Constructor parameters of `CircuitBreaker`. -/
structure CircuitBreakerConfig where
  failureThreshold : Nat := 5
  resetTimeoutMs : Int := 30000
  halfOpenProbes : Nat := 2
deriving DecidableEq, Repr

/-- Mutable fields of `CircuitBreaker`. -/
structure CircuitBreakerState where
  state : CircuitState := .CLOSED
  failureCount : Nat := 0
  successCount : Nat := 0
  lastStateChange : Int := 0
deriving DecidableEq, Repr

/-- `CircuitBreaker.transitionTo` (logging and metrics dropped). -/
def transitionTo (s : CircuitBreakerState) (st : CircuitState) (now : Int) :
    CircuitBreakerState :=
  { s with state := st, lastStateChange := now }

/-- `CircuitBreaker.onSuccess`. -/
def onSuccess (cfg : CircuitBreakerConfig) (s : CircuitBreakerState) (now : Int) :
    CircuitBreakerState :=
  let s := { s with failureCount := 0 }
  if s.state = .HALF_OPEN then
    let s := { s with successCount := s.successCount + 1 }
    if cfg.halfOpenProbes ≤ s.successCount then
      { transitionTo s .CLOSED now with successCount := 0 }
    else s
  else s

/-- `CircuitBreaker.onFailure`. -/
def onFailure (cfg : CircuitBreakerConfig) (s : CircuitBreakerState) (now : Int) :
    CircuitBreakerState :=
  let s := { s with failureCount := s.failureCount + 1 }
  if cfg.failureThreshold ≤ s.failureCount then transitionTo s .OPEN now else s

/-- Observable outcome of one `CircuitBreaker.call`. -/
inductive CallResult
  | rejected
  | succeeded
  | failed
deriving DecidableEq, Repr

/-- `CircuitBreaker.call`: `now` is `Date.now()` at the call, `ok` whether
the wrapped `fn` resolves. -/
def call (cfg : CircuitBreakerConfig) (s : CircuitBreakerState) (now : Int)
    (ok : Bool) : CircuitBreakerState × CallResult :=
  if s.state = .OPEN then
    if cfg.resetTimeoutMs < now - s.lastStateChange then
      let s := transitionTo s .HALF_OPEN now
      if ok then (onSuccess cfg s now, .succeeded) else (onFailure cfg s now, .failed)
    else (s, .rejected)
  else
    if ok then (onSuccess cfg s now, .succeeded) else (onFailure cfg s now, .failed)

/-- Run a sequence of `(now, ok)` calls from a state. -/
def runCalls (cfg : CircuitBreakerConfig) (s : CircuitBreakerState)
    (calls : List (Int × Bool)) : CircuitBreakerState :=
  calls.foldl (fun st c => (call cfg st c.1 c.2).1) s

/-- A row of `idempotency_keys` live for the key (only the fields the
control flow reads). -/
structure IdempotencyRecord where
  locked : Bool
  statusCode : Option Nat := none
deriving DecidableEq, Repr

/-- What one pass of `IdempotencyRegistry.execute` does. -/
inductive ExecOutcome
  | waited
  | cachedHit
  | ranFn
deriving DecidableEq, Repr

/-- `ON CONFLICT (id) DO NOTHING` insert of a fresh locked row for the key. -/
def insertOnConflictDoNothing (store : Option IdempotencyRecord)
    (fresh : IdempotencyRecord) : Option IdempotencyRecord :=
  match store with
  | some r => some r
  | none => some fresh

/-- One pass of `IdempotencyRegistry.execute` for one key:
`storeAtLookup` is the live row the initial `SELECT` sees, `storeAtInsert`
the row present when the `INSERT ... ON CONFLICT (id) DO NOTHING` runs (a
concurrent caller may have inserted in between).  After a lookup miss the
code performs the insert and proceeds to run `fn` without inspecting the
insert's affected-row count. -/
def executeRound (storeAtLookup storeAtInsert : Option IdempotencyRecord) :
    ExecOutcome × Option IdempotencyRecord :=
  match storeAtLookup with
  | some r => if r.locked then (.waited, storeAtInsert) else (.cachedHit, storeAtInsert)
  | none =>
      (.ranFn, insertOnConflictDoNothing storeAtInsert { locked := true })

end SelfHealingCore

namespace IncidentManager

/-- `IncidentStatus` of `incident-manager.ts`. -/
inductive IncidentStatus
  | OPEN
  | AUTO_HEALING
  | ESCALATED
  | RESOLVED
  | CLOSED
deriving DecidableEq, Repr

/-- The columns of `incidents` that `escalate` / `autoResolve` touch. -/
structure Incident where
  status : IncidentStatus
  escalatedAt : Option Int := none
  resolvedAt : Option Int := none
  resolvedReason : Option String := none
  autoHealed : Bool := false
  updatedAt : Int := 0
deriving DecidableEq, Repr

/-- `IncidentManager.escalate` for the row with the requested id (`none`
means no such row): returns early when the row is missing or already
`ESCALATED`; otherwise the `UPDATE` sets `status='ESCALATED'` and
`escalated_at` with no further status filter in its `WHERE` clause. -/
def escalate (inc : Option Incident) (now : Int) : Option Incident :=
  match inc with
  | none => none
  | some i =>
      if i.status = .ESCALATED then some i
      else some { i with status := .ESCALATED, escalatedAt := some now, updatedAt := now }

/-- `IncidentManager.autoResolve`: its `UPDATE` carries
`AND status NOT IN ('RESOLVED','CLOSED')`. -/
def autoResolve (inc : Option Incident) (reason : String) (now : Int) :
    Option Incident :=
  match inc with
  | none => none
  | some i =>
      if i.status = .RESOLVED ∨ i.status = .CLOSED then some i
      else some { i with status := .RESOLVED, resolvedReason := some reason,
                         resolvedAt := some now, autoHealed := true, updatedAt := now }

end IncidentManager

namespace InvariantEngine

/-- `ViolationRecord` of `invariant-engine.ts` (`detail` kept opaque). -/
structure ViolationRecord where
  entityId : String
  entityType : String
  shopId : Option String := none
deriving DecidableEq, Repr

/-- `InvariantResult` of `invariant-engine.ts`. -/
structure InvariantResult where
  name : String
  passed : Bool
  driftScore : Int
  violations : List ViolationRecord
  autoCorrected : Bool
deriving DecidableEq, Repr

/-- The `weights` table of `computeDriftScore`, default weight 5. -/
def weightOf (name : String) : ℚ :=
  if name = "NO_NEGATIVE_STOCK" then 25
  else if name = "SALE_TOTAL_MATCHES_LINE_ITEMS" then 20
  else if name = "PAYMENT_SUM_MATCHES_SALE_TOTAL" then 20
  else if name = "NO_DUPLICATE_INVOICES" then 15
  else if name = "STOCK_MOVEMENT_BALANCE" then 10
  else if name = "CREDIT_LIMIT_NOT_EXCEEDED" then 7
  else if name = "NO_ORPHANED_SALE_ITEMS" then 3
  else 5

/-- Deduction one failed invariant contributes:
`Math.min(weight, weight * Math.log10(r.violations.length + 1))`. -/
noncomputable def deductionFor (r : InvariantResult) : ℝ :=
  min (weightOf r.name : ℝ)
    ((weightOf r.name : ℝ) * Real.logb 10 ((r.violations.length : ℝ) + 1))

/-- The `deduction` accumulator of `computeDriftScore`: failed results add
their capped deduction, passed results add nothing. -/
noncomputable def totalDeduction (results : List InvariantResult) : ℝ :=
  results.foldl (fun acc r => if r.passed then acc else acc + deductionFor r) 0

/-- `computeDriftScore`: `Math.max(0, Math.round(100 - deduction))`. -/
noncomputable def computeDriftScore (results : List InvariantResult) : ℤ :=
  max 0 (round ((100 : ℝ) - totalDeduction results))

/-- The static fields of one entry of the `INVARIANTS` registry. -/
structure InvariantSpec where
  name : String
  priority : String
  safeToAutoCorrect : Bool
  hasAutoCorrect : Bool
deriving DecidableEq, Repr

/-- The result `InvariantEngine.runAll` pushes for one invariant:
`outcome = none` means `inv.check` threw (the `catch` branch pushes a
synthetic failed result with an empty violations list); otherwise
`outcome = some violations`, and `autoCorrectSucceeds` tells whether the
attempted `inv.autoCorrect` resolved. -/
def runInvariant (inv : InvariantSpec) (outcome : Option (List ViolationRecord))
    (autoCorrectSucceeds : Bool) : InvariantResult :=
  match outcome with
  | none =>
      { name := inv.name, passed := false, driftScore := 0,
        violations := [], autoCorrected := false }
  | some violations =>
      let autoCorrected := decide (0 < violations.length) && inv.safeToAutoCorrect
        && inv.hasAutoCorrect && autoCorrectSucceeds
      { name := inv.name
        passed := decide (violations.length = 0) || autoCorrected
        driftScore := if violations.length = 0 then 100
          else max 0 (100 - 10 * (violations.length : Int))
        violations := violations
        autoCorrected := autoCorrected }

/-- The results `runAll` collects when every `inv.check` throws. -/
def allThrown (invs : List InvariantSpec) : List InvariantResult :=
  invs.map (fun inv => runInvariant inv none false)

/-- The failed results `runAll` forwards to
`incidentManager.createOrUpdateFromInvariant`. -/
def failedResults (rs : List InvariantResult) : List InvariantResult :=
  rs.filter (fun r => !r.passed)

end InvariantEngine

namespace HealthScore

/-- The letter grades of `HealthReport`. -/
inductive Grade
  | A
  | B
  | C
  | D
  | F
deriving DecidableEq, Repr

/-- Everything `HealthScoreEngine.compute` reads from the database, the
metrics registry and the clock, with one flag per component promise that
may reject (`Promise.all` with `.catch` fallbacks). -/
structure HealthEnv where
  integrityFailed : Bool
  driftScore : ℚ
  errorRate : ℚ
  p95 : ℚ
  incidentsFailed : Bool
  p1 : Nat
  p2 : Nat
  p3 : Nat
  p4 : Nat
  backupFailed : Bool
  backupAgeHrs : Option ℚ
  migrationsFailed : Bool
  migrationsTableMissing : Bool
  pendingMigrations : Nat
  safeMode : Bool
deriving DecidableEq, Repr

/-- `scoreIntegrity`: `Math.round((driftScore / 100) * 30)`. -/
def scoreIntegrity (driftScore : ℚ) : ℤ :=
  round (driftScore / 100 * 30)

/-- `scoreErrorRate`. -/
def scoreErrorRate (rate : ℚ) : ℤ :=
  if rate = 0 then 20
  else if rate < 5 / 1000 then 18
  else if rate < 1 / 100 then 15
  else if rate < 3 / 100 then 10
  else if rate < 5 / 100 then 5
  else 0

/-- `scoreLatency`. -/
def scoreLatency (p95 : ℚ) : ℤ :=
  if p95 = 0 then 15
  else if p95 < 100 then 15
  else if p95 < 200 then 12
  else if p95 < 500 then 8
  else if p95 < 1000 then 4
  else 0

/-- `scoreIncidents`: `Math.max(0, 20 - deduction)`. -/
def scoreIncidents (p1 p2 p3 p4 : Nat) : ℤ :=
  max 0 (20 - ((10 * p1 + 5 * p2 + 2 * p3 + 1 * p4 : Nat) : Int))

/-- `scoreBackup` (`none`: no PASSED validation row). -/
def scoreBackup (row : Option ℚ) : ℤ :=
  match row with
  | none => 0
  | some ageHrs =>
      if ageHrs < 12 then 10
      else if ageHrs < 24 then 7
      else if ageHrs < 48 then 3
      else 0

/-- `scoreMigrations` (its own `catch` returns 3 when the table is missing). -/
def scoreMigrations (tableMissing : Bool) (pending : Nat) : ℤ :=
  if tableMissing then 3
  else if pending = 0 then 5 else 0

/-- `scoreIntegrity(...).catch(() => 20)`. -/
def integrityComponent (env : HealthEnv) : ℤ :=
  if env.integrityFailed then 20 else scoreIntegrity env.driftScore

/-- `scoreErrorRate()` (reads a gauge, never rejects). -/
def errorRateComponent (env : HealthEnv) : ℤ :=
  scoreErrorRate env.errorRate

/-- `scoreLatency()` (reads a percentile, never rejects). -/
def latencyComponent (env : HealthEnv) : ℤ :=
  scoreLatency env.p95

/-- `scoreIncidents(...).catch(() => 15)`. -/
def incidentsComponent (env : HealthEnv) : ℤ :=
  if env.incidentsFailed then 15 else scoreIncidents env.p1 env.p2 env.p3 env.p4

/-- `scoreBackup(...).catch(() => 5)`. -/
def backupComponent (env : HealthEnv) : ℤ :=
  if env.backupFailed then 5 else scoreBackup env.backupAgeHrs

/-- `scoreMigrations(...).catch(() => 3)`. -/
def migrationsComponent (env : HealthEnv) : ℤ :=
  if env.migrationsFailed then 3
  else scoreMigrations env.migrationsTableMissing env.pendingMigrations

/-- `Object.values(components).reduce((a, b) => a + b, 0)`. -/
def healthScoreOf (env : HealthEnv) : ℤ :=
  integrityComponent env + errorRateComponent env + latencyComponent env
    + incidentsComponent env + backupComponent env + migrationsComponent env

/-- The grade chain of `compute`. -/
def gradeOf (score : ℤ) : Grade :=
  if 90 ≤ score then .A
  else if 75 ≤ score then .B
  else if 60 ≤ score then .C
  else if 40 ≤ score then .D
  else .F

/-- The reason string `compute` passes to `enableSafeMode`. -/
def healthFReason : String := "Health score F — auto-engaged by health engine"

/-- What one `HealthScoreEngine.compute` produces and does. -/
structure HealthOutcome where
  score : ℤ
  grade : Grade
  integrity : ℤ
  errorRate : ℤ
  latency : ℤ
  incidents : ℤ
  backup : ℤ
  migrations : ℤ
  criticalAlert : Bool
  engagedReason : Option String
deriving DecidableEq, Repr

/-- `HealthScoreEngine.compute`: the critical alert fires inside
`if (score < 40 && !safeMode)`, and safe mode is auto-engaged there when
additionally `grade === 'F'`. -/
def compute (env : HealthEnv) : HealthOutcome :=
  let score := healthScoreOf env
  let grade := gradeOf score
  let criticalAlert := decide (score < 40) && !env.safeMode
  { score := score
    grade := grade
    integrity := integrityComponent env
    errorRate := errorRateComponent env
    latency := latencyComponent env
    incidents := incidentsComponent env
    backup := backupComponent env
    migrations := migrationsComponent env
    criticalAlert := criticalAlert
    engagedReason :=
      if criticalAlert && decide (grade = .F) then some healthFReason else none }

/-- A concrete healthy environment (all queries succeed, fresh backup,
no incidents, no pending migrations, drift 100). -/
def sampleEnv : HealthEnv :=
  { integrityFailed := false, driftScore := 100, errorRate := 0, p95 := 50,
    incidentsFailed := false, p1 := 0, p2 := 0, p3 := 0, p4 := 0,
    backupFailed := false, backupAgeHrs := some 2, migrationsFailed := false,
    migrationsTableMissing := false, pendingMigrations := 0, safeMode := false }

end HealthScore

namespace SecurityEngine

/-- `RateWindow` of `security-engine.ts`. -/
structure RateWindow where
  timestamps : List ℤ
  blocked : Bool
  blockUntil : ℤ
deriving DecidableEq, Repr

/-- `{ timestamps: [], blocked: false, blockUntil: 0 }`. -/
def emptyWindow : RateWindow :=
  { timestamps := [], blocked := false, blockUntil := 0 }

/-- `WINDOW_MS = 60_000`. -/
def WINDOW_MS : ℤ := 60000

/-- `RateLimiterStore.record` for one key: the stored window, `Date.now()`
and the route's `limit` in, the new stored window plus the returned
`{ blocked, count }` out. -/
def record (limit : Nat) (w : RateWindow) (now : ℤ) :
    RateWindow × Bool × Nat :=
  if w.blocked ∧ now < w.blockUntil then
    (w, true, w.timestamps.length)
  else
    let w := if w.blocked then emptyWindow else w
    let ts := (w.timestamps.filter (fun t => now - t < WINDOW_MS)) ++ [now]
    let count := ts.length
    if limit < count then
      ({ timestamps := ts, blocked := true, blockUntil := now + 5 * 60000 }, true, count)
    else
      ({ timestamps := ts, blocked := w.blocked, blockUntil := w.blockUntil }, w.blocked, count)

/-- The stored window after a sequence of `record` calls for one key. -/
def applyCalls (limit : Nat) (nows : List ℤ) : RateWindow :=
  nows.foldl (fun w now => (record limit w now).1) emptyWindow

/-- A row of the `AuditLog` query in `verifyAuditChain`. -/
structure AuditRow where
  id : String
  row_hash : String
  prev_hash : String
deriving DecidableEq, Repr

/-- What `verifyAuditChain` returns, together with the P1 incident it
creates at the first break (or `none`). -/
structure VerifyIncident where
  priority : String
  title : String
  brokenAt : String
  expected : String
  actual : String
deriving DecidableEq, Repr

/-- `{ valid, brokenAt? }` plus the created incident. -/
structure VerifyResult where
  valid : Bool
  brokenAt : Option String := none
  incident : Option VerifyIncident := none
deriving DecidableEq, Repr

/-- The result built at a broken link: row `b`, expected previous hash `h`. -/
def brokenResult (b : AuditRow) (h : String) : VerifyResult :=
  { valid := false, brokenAt := some b.id,
    incident := some { priority := "P1", title := "AUDIT LOG TAMPER DETECTED",
                       brokenAt := b.id, expected := h, actual := b.prev_hash } }

/-- The loop of `verifyAuditChain`, carrying the SQL `lag(row_hash)` of the
current row (`none` for the first row).  The guard mirrors
`if (row.prevRowHash && row.prev_hash !== row.prevRowHash)`: a `NULL` or
empty-string lag is falsy and skips the comparison. -/
def verifyFrom : Option String → List AuditRow → VerifyResult
  | _, [] => { valid := true }
  | prev, row :: rest =>
      match prev with
      | none => verifyFrom (some row.row_hash) rest
      | some h =>
          if h ≠ "" ∧ row.prev_hash ≠ h then brokenResult row h
          else verifyFrom (some row.row_hash) rest

/-- `SecurityEngine.verifyAuditChain(limit)` over the audit rows ordered by
`createdAt` (the SQL `LIMIT` keeps the first `limit` rows). -/
def verifyAuditChain (limit : Nat) (rows : List AuditRow) : VerifyResult :=
  verifyFrom none (rows.take limit)

/-- The link a pair of consecutive rows must satisfy for the verifier to
pass it: when the earlier row's hash is non-empty (truthy), the later
row's `prev_hash` must equal it. -/
def auditLinkOk (a b : AuditRow) : Prop :=
  a.row_hash ≠ "" → b.prev_hash = a.row_hash

instance (a b : AuditRow) : Decidable (auditLinkOk a b) := by
  unfold auditLinkOk; infer_instance

/-- A stand-in row carrying only a `row_hash`, used to state facts about
`verifyFrom (some h)`. -/
def phantom (h : String) : AuditRow :=
  { id := "", row_hash := h, prev_hash := "" }

end SecurityEngine

namespace SafeModeMiddleware

/-- `WRITE_METHODS`. -/
def WRITE_METHODS : List String := ["POST", "PUT", "PATCH", "DELETE"]

/-- The request fields the middleware reads (`url` is optional:
`req.url?.startsWith`). -/
structure Req where
  method : String
  url : Option String
deriving DecidableEq, Repr

/-- How the middleware disposes of a request. -/
inductive MwOutcome
  | pass
  | rejectSafeMode
  | rejectCheckFailed
deriving DecidableEq, Repr

/-- HTTP status the middleware replies with (`none`: handler invoked). -/
def statusOf : MwOutcome → Option Nat
  | .pass => none
  | .rejectSafeMode => some 503
  | .rejectCheckFailed => some 503

/-- The `error` field of the reply body (`none`: handler invoked). -/
def errorOf : MwOutcome → Option String
  | .pass => none
  | .rejectSafeMode => some "SERVICE_IN_SAFE_MODE"
  | .rejectCheckFailed => some "SAFE_MODE_CHECK_FAILED"

/-- The `readOnly` field of the reply body. -/
def readOnlyOf : MwOutcome → Option Bool
  | .pass => none
  | .rejectSafeMode => some true
  | .rejectCheckFailed => none

/-- `safeModeMiddleware`: `safeCheck` is what `engine.isSafeMode()` does
(`Except.error`: the check throws; `Except.ok b`: it resolves with `b`). -/
def safeModeMiddleware (safeCheck : Except Unit Bool) (req : Req) : MwOutcome :=
  if ¬ req.method ∈ WRITE_METHODS then .pass
  else if (match req.url with
           | some u => u.startsWith "/system-mode"
           | none => false) then .pass
  else
    match safeCheck with
    | .error _ => .rejectCheckFailed
    | .ok true => .rejectSafeMode
    | .ok false => .pass

end SafeModeMiddleware

namespace SelfHealingCore

/-- C1: `IdempotencyRegistry.execute` does not restart at step 1 when its
`INSERT ... ON CONFLICT (id) DO NOTHING` loses the race.  Two callers of
the same key whose lookups both miss each take the acquire path: the first
inserts the locked row; the second's insert is a no-op (the row already
exists), yet the second caller still runs `fn` — two `fn` invocations for
one live key, where the claim and the spec demand at most one with the
loser restarting at step 1. -/
theorem idempotency_lost_race_runs_fn :
    (executeRound none none).1 = .ranFn
    ∧ (executeRound none none).2 = some { locked := true }
    ∧ insertOnConflictDoNothing (some { locked := true }) { locked := true }
        = some { locked := true }
    ∧ (executeRound none (executeRound none none).2).1 = .ranFn :=
  ⟨rfl, rfl, rfl, rfl⟩

end SelfHealingCore

namespace IncidentManager

/-- C2: `escalate` on a terminal incident does not leave it unchanged: the
early return only fires for status `ESCALATED`, and the `UPDATE` has no
status filter, so a `RESOLVED` incident is moved to `ESCALATED` (its
`escalated_at` set), contradicting the claim's "leaves its status
unchanged".  The parts of the claim the code does satisfy are shown
alongside: a second `escalate` keeps the first `escalated_at`, and
`autoResolve` does skip terminal states. -/
theorem escalate_reopens_terminal_incident :
    escalate (some { status := .RESOLVED, resolvedAt := some 1, updatedAt := 1 }) 5
      = some { status := .ESCALATED, escalatedAt := some 5,
               resolvedAt := some 1, updatedAt := 5 }
    ∧ escalate (some { status := .OPEN, updatedAt := 1 }) 3
      = some { status := .ESCALATED, escalatedAt := some 3, updatedAt := 3 }
    ∧ escalate (escalate (some { status := .OPEN, updatedAt := 1 }) 3) 7
      = some { status := .ESCALATED, escalatedAt := some 3, updatedAt := 3 }
    ∧ autoResolve (some { status := .CLOSED, updatedAt := 1 }) "retry fixed it" 5
      = some { status := .CLOSED, updatedAt := 1 } :=
  ⟨rfl, rfl, rfl, rfl⟩

end IncidentManager

namespace SelfHealingCore

/-- C7 counterexample: from a fresh breaker (threshold 5, reset 30000 ms,
2 probes), five failures open it; at `t = 40000` the probe call finds the
reset timeout elapsed, moves to `HALF_OPEN` and succeeds (probe counter 1,
failure counter reset to 0); the next call at `t = 40001` fails while the
breaker is `HALF_OPEN`, yet the breaker stays `HALF_OPEN` instead of
transitioning back to `OPEN` as the claim states, because `onFailure` only
opens at `failureThreshold` cumulative failures. -/
theorem half_open_failure_after_probe_stays :
    (runCalls {} {} [(0, false), (1, false), (2, false), (3, false), (4, false)]).state
      = .OPEN
    ∧ (call {} (runCalls {} {} [(0, false), (1, false), (2, false), (3, false), (4, false)])
        40000 true).1
      = { state := .HALF_OPEN, failureCount := 0, successCount := 1,
          lastStateChange := 40000 }
    ∧ (call {}
        { state := .HALF_OPEN, failureCount := 0, successCount := 1,
          lastStateChange := 40000 } 40001 false).1.state
      = .HALF_OPEN := by
  refine ⟨by decide, by decide, by decide⟩

end SelfHealingCore

namespace SecurityEngine

/-- C4 counterexample: a single-row audit log whose first `prev_hash` is
not the sentinel `"GENESIS"` still verifies as valid and creates no
incident — the verifier's `lag` is `NULL` on the first row, so the
claimed `GENESIS` check never happens. -/
theorem audit_chain_first_row_not_checked :
    verifyAuditChain 1000 [{ id := "r1", row_hash := "h1", prev_hash := "TAMPERED" }]
      = { valid := true, brokenAt := none, incident := none }
    ∧ "TAMPERED" ≠ "GENESIS" :=
  ⟨rfl, by decide⟩

end SecurityEngine

namespace HealthScore

/-- C3 counterexample: a computation whose components sum to 43 (a score
between 40 and 49, safe mode off) emits no CRITICAL alert and does not
engage safe mode — the alert block only runs for `score < 40`. -/
theorem health_D_band_no_alert_at_43 :
    (compute { integrityFailed := true, driftScore := 0, errorRate := 1, p95 := 2000,
               incidentsFailed := true, p1 := 0, p2 := 0, p3 := 0, p4 := 0,
               backupFailed := true, backupAgeHrs := none, migrationsFailed := true,
               migrationsTableMissing := false, pendingMigrations := 0,
               safeMode := false }).score = 43
    ∧ (compute { integrityFailed := true, driftScore := 0, errorRate := 1, p95 := 2000,
                 incidentsFailed := true, p1 := 0, p2 := 0, p3 := 0, p4 := 0,
                 backupFailed := true, backupAgeHrs := none, migrationsFailed := true,
                 migrationsTableMissing := false, pendingMigrations := 0,
                 safeMode := false }).criticalAlert = false
    ∧ (compute { integrityFailed := true, driftScore := 0, errorRate := 1, p95 := 2000,
                 incidentsFailed := true, p1 := 0, p2 := 0, p3 := 0, p4 := 0,
                 backupFailed := true, backupAgeHrs := none, migrationsFailed := true,
                 migrationsTableMissing := false, pendingMigrations := 0,
                 safeMode := false }).engagedReason = none := by
  refine ⟨?_, ?_, ?_⟩ <;>
    norm_num [compute, healthScoreOf, integrityComponent, errorRateComponent,
      latencyComponent, incidentsComponent, backupComponent, migrationsComponent,
      scoreErrorRate, scoreLatency, scoreIncidents, scoreBackup, scoreMigrations,
      gradeOf]

end HealthScore

namespace SelfHealingCore

/-- C7 (amended): in `HALF_OPEN` calls are forwarded; a success increments
the probe counter and transitions to `CLOSED` exactly on reaching
`halfOpenProbes` (resetting both counters); but a failure transitions back
to `OPEN` only when the cumulative `failureCount` reaches
`failureThreshold` — a failure that leaves it below the threshold (as
after a successful probe, which resets `failureCount` to 0) keeps the
breaker in `HALF_OPEN`. -/
theorem half_open_probe_and_failure_behaviour (cfg : CircuitBreakerConfig)
    (s : CircuitBreakerState) (now : Int) :
    (s.state = .HALF_OPEN →
      (call cfg s now true).2 = .succeeded ∧ (call cfg s now false).2 = .failed)
    ∧ (s.state = .HALF_OPEN → cfg.halfOpenProbes ≤ s.successCount + 1 →
      (call cfg s now true).1.state = .CLOSED
      ∧ (call cfg s now true).1.successCount = 0
      ∧ (call cfg s now true).1.failureCount = 0)
    ∧ (s.state = .HALF_OPEN → s.successCount + 1 < cfg.halfOpenProbes →
      (call cfg s now true).1.state = .HALF_OPEN
      ∧ (call cfg s now true).1.successCount = s.successCount + 1
      ∧ (call cfg s now true).1.failureCount = 0)
    ∧ (s.state = .HALF_OPEN → cfg.failureThreshold ≤ s.failureCount + 1 →
      (call cfg s now false).1.state = .OPEN)
    ∧ (s.state = .HALF_OPEN → s.failureCount + 1 < cfg.failureThreshold →
      (call cfg s now false).1.state = .HALF_OPEN
      ∧ (call cfg s now false).1.failureCount = s.failureCount + 1) := by
  refine ⟨fun h => ?_, fun h hp => ?_, fun h hp => ?_, fun h hf => ?_, fun h hf => ?_⟩
  · simp [call, h]
  · simp [call, h, onSuccess, transitionTo, hp]
  · have hp' : ¬ cfg.halfOpenProbes ≤ s.successCount + 1 := by omega
    simp [call, h, onSuccess, transitionTo, hp']
  · simp [call, h, onFailure, transitionTo, hf]
  · have hf' : ¬ cfg.failureThreshold ≤ s.failureCount + 1 := by omega
    simp [call, h, onFailure, transitionTo, hf']

end SelfHealingCore

namespace SafeModeMiddleware

/-- C8: requests whose method is not a write method pass through, as do
write requests to the `/system-mode` control prefix; for any other write
request, a throwing safe-mode check fails closed with 503, an enabled safe
mode yields a 503 reply with error `SERVICE_IN_SAFE_MODE` and
`readOnly:true` without invoking the handler, and a disabled safe mode
passes the request through. -/
theorem safe_mode_middleware_behaviour (check : Except Unit Bool) (req : Req) :
    (¬ req.method ∈ WRITE_METHODS → safeModeMiddleware check req = .pass)
    ∧ ((match req.url with
        | some u => u.startsWith "/system-mode"
        | none => false) = true → safeModeMiddleware check req = .pass)
    ∧ (req.method ∈ WRITE_METHODS →
       (match req.url with
        | some u => u.startsWith "/system-mode"
        | none => false) = false →
        (check = .error () → safeModeMiddleware check req = .rejectCheckFailed
          ∧ statusOf (safeModeMiddleware check req) = some 503)
        ∧ (check = .ok true → safeModeMiddleware check req = .rejectSafeMode
          ∧ statusOf (safeModeMiddleware check req) = some 503
          ∧ errorOf (safeModeMiddleware check req) = some "SERVICE_IN_SAFE_MODE"
          ∧ readOnlyOf (safeModeMiddleware check req) = some true)
        ∧ (check = .ok false → safeModeMiddleware check req = .pass)) := by
  refine ⟨fun h => ?_, fun h => ?_, fun hm hu => ⟨fun hc => ?_, fun hc => ?_, fun hc => ?_⟩⟩ <;>
    simp_all [safeModeMiddleware, statusOf, errorOf, readOnlyOf]

end SafeModeMiddleware

namespace SecurityEngine

/-- One `record` call preserves the window invariant: at most `limit + 1`
stored timestamps, and at most `limit` while unblocked. -/
theorem record_window_inv (limit : Nat) (w : RateWindow) (now : ℤ)
    (h1 : w.timestamps.length ≤ limit + 1)
    (h2 : w.blocked = false → w.timestamps.length ≤ limit) :
    (record limit w now).1.timestamps.length ≤ limit + 1
    ∧ ((record limit w now).1.blocked = false →
        (record limit w now).1.timestamps.length ≤ limit) := by
  by_cases hb : w.blocked ∧ now < w.blockUntil
  · simp only [record, if_pos hb]
    exact ⟨h1, h2⟩
  · have hlen : (if w.blocked then emptyWindow else w).timestamps.length ≤ limit := by
      by_cases hw : w.blocked
      · simp [hw, emptyWindow]
      · simpa [hw] using h2 (by simpa using hw)
    have hfil : ((if w.blocked then emptyWindow else w).timestamps.filter
        (fun t => now - t < WINDOW_MS)).length ≤ limit :=
      le_trans (List.length_filter_le _ _) hlen
    simp only [record, if_neg hb]
    by_cases hc : limit <
        ((if w.blocked then emptyWindow else w).timestamps.filter
          (fun t => now - t < WINDOW_MS) ++ [now]).length
    · simp only [if_pos hc]
      refine ⟨?_, by simp⟩
      simpa using Nat.add_le_add_right hfil 1
    · simp only [if_neg hc]
      push_neg at hc
      constructor
      · exact le_trans hc (Nat.le_succ _)
      · intro _
        exact hc

/-- The window invariant holds along any sequence of `record` calls. -/
theorem foldl_record_inv (limit : Nat) :
    ∀ (nows : List ℤ) (w : RateWindow),
      w.timestamps.length ≤ limit + 1 →
      (w.blocked = false → w.timestamps.length ≤ limit) →
      (nows.foldl (fun w now => (record limit w now).1) w).timestamps.length ≤ limit + 1
      ∧ ((nows.foldl (fun w now => (record limit w now).1) w).blocked = false →
          (nows.foldl (fun w now => (record limit w now).1) w).timestamps.length ≤ limit)
  | [], w, h1, h2 => ⟨h1, h2⟩
  | now :: nows, w, h1, h2 => by
      have h := record_window_inv limit w now h1 h2
      simpa using foldl_record_inv limit nows (record limit w now).1 h.1 h.2

/-- C9: for one key, the stored sliding window never holds more than
`limit + 1` request timestamps; a `record` while blocked and before
`blockUntil` returns blocked and leaves the stored window untouched
(no timestamp appended); and a `record` at or after `blockUntil` behaves
exactly as on a fresh (reset) window. -/
theorem rate_limiter_window_bound_and_block (limit : Nat) (nows : List ℤ)
    (w : RateWindow) (now : ℤ) :
    (applyCalls limit nows).timestamps.length ≤ limit + 1
    ∧ (w.blocked = true → now < w.blockUntil →
        record limit w now = (w, true, w.timestamps.length))
    ∧ (w.blocked = true → w.blockUntil ≤ now →
        record limit w now = record limit emptyWindow now) := by
  refine ⟨?_, fun hb hlt => ?_, fun hb hge => ?_⟩
  · exact (foldl_record_inv limit nows emptyWindow (by simp [emptyWindow])
      (by simp [emptyWindow])).1
  · simp [record, hb, hlt]
  · have hlt : ¬ now < w.blockUntil := not_lt.mpr hge
    simp [record, hb, hlt, emptyWindow]

end SecurityEngine

/-- `round` is monotone (JavaScript `Math.round` rounds half toward `+∞`,
as does Mathlib's `round`). -/
theorem round_mono_of_le {α : Type} [LinearOrderedField α] [FloorRing α]
    {x y : α} (h : x ≤ y) : round x ≤ round y := by
  rw [round_eq, round_eq]
  exact Int.floor_le_floor (by linarith)

/-- `Math.max(0, Math.round(x))` agrees with `Math.round(Math.max(0, x))`. -/
theorem max_zero_round_comm (x : ℝ) : max 0 (round x) = round (max 0 x) := by
  rcases le_total x 0 with h | h
  · have h1 : round x ≤ 0 := by
      have := round_mono_of_le h
      simpa using this
    rw [max_eq_left h1, max_eq_left h, round_zero]
  · have h1 : (0 : ℤ) ≤ round x := by
      have := round_mono_of_le h
      simpa using this
    rw [max_eq_right h1, max_eq_right h]

namespace InvariantEngine

/-- Every weight of the table (and the default) is nonnegative. -/
theorem weightOf_nonneg (name : String) : 0 ≤ weightOf name := by
  unfold weightOf
  split_ifs <;> norm_num

/-- The per-invariant deduction is nonnegative. -/
theorem deductionFor_nonneg (r : InvariantResult) : 0 ≤ deductionFor r := by
  have hw : (0 : ℝ) ≤ (weightOf r.name : ℝ) := by
    exact_mod_cast weightOf_nonneg r.name
  have hx : (1 : ℝ) ≤ (r.violations.length : ℝ) + 1 := by
    have := Nat.cast_nonneg (α := ℝ) r.violations.length
    linarith
  have hl : (0 : ℝ) ≤ Real.logb 10 ((r.violations.length : ℝ) + 1) :=
    Real.logb_nonneg (by norm_num) hx
  exact le_min hw (mul_nonneg hw hl)

/-- A failed invariant with no violations deducts nothing. -/
theorem deductionFor_nil (r : InvariantResult) (h : r.violations = []) :
    deductionFor r = 0 := by
  have hw : (0 : ℝ) ≤ (weightOf r.name : ℝ) := by
    exact_mod_cast weightOf_nonneg r.name
  simp [deductionFor, h, min_eq_right hw]

/-- The accumulator of `computeDriftScore`'s loop never decreases. -/
theorem le_foldl_deduction (rs : List InvariantResult) :
    ∀ acc : ℝ,
      acc ≤ rs.foldl (fun acc r => if r.passed then acc else acc + deductionFor r) acc := by
  induction rs with
  | nil => intro acc; simp
  | cons r rs ih =>
      intro acc
      have h1 : acc ≤ (if r.passed then acc else acc + deductionFor r) := by
        split
        · exact le_refl acc
        · exact le_add_of_nonneg_right (deductionFor_nonneg r)
      simpa using le_trans h1 (ih _)

/-- The total deduction is nonnegative. -/
theorem totalDeduction_nonneg (rs : List InvariantResult) : 0 ≤ totalDeduction rs :=
  le_foldl_deduction rs 0

/-- C5: `computeDriftScore` equals
`round(max(0, 100 − Σ_failed min(w, w·log₁₀(count+1))))`, always lies in
`[0, 100]`, a failed invariant with 0 violations deducts 0, one with 1
violation deducts `w·log₁₀ 2`, no invariant deducts more than its weight,
and the weight table is `{NO_NEGATIVE_STOCK:25, SALE_TOTAL_MATCHES_LINE_ITEMS:20,
PAYMENT_SUM_MATCHES_SALE_TOTAL:20, NO_DUPLICATE_INVOICES:15,
STOCK_MOVEMENT_BALANCE:10, CREDIT_LIMIT_NOT_EXCEEDED:7,
NO_ORPHANED_SALE_ITEMS:3}` with default 5. -/
theorem computeDriftScore_formula_and_bounds (rs : List InvariantResult)
    (r : InvariantResult) :
    computeDriftScore rs = round (max 0 ((100 : ℝ) - totalDeduction rs))
    ∧ 0 ≤ computeDriftScore rs
    ∧ computeDriftScore rs ≤ 100
    ∧ (r.violations = [] → deductionFor r = 0)
    ∧ (r.violations.length = 1 →
        deductionFor r = (weightOf r.name : ℝ) * Real.logb 10 2)
    ∧ deductionFor r ≤ (weightOf r.name : ℝ)
    ∧ weightOf "NO_NEGATIVE_STOCK" = 25
    ∧ weightOf "SALE_TOTAL_MATCHES_LINE_ITEMS" = 20
    ∧ weightOf "PAYMENT_SUM_MATCHES_SALE_TOTAL" = 20
    ∧ weightOf "NO_DUPLICATE_INVOICES" = 15
    ∧ weightOf "STOCK_MOVEMENT_BALANCE" = 10
    ∧ weightOf "CREDIT_LIMIT_NOT_EXCEEDED" = 7
    ∧ weightOf "NO_ORPHANED_SALE_ITEMS" = 3
    ∧ (¬ r.name ∈ ["NO_NEGATIVE_STOCK", "SALE_TOTAL_MATCHES_LINE_ITEMS",
        "PAYMENT_SUM_MATCHES_SALE_TOTAL", "NO_DUPLICATE_INVOICES",
        "STOCK_MOVEMENT_BALANCE", "CREDIT_LIMIT_NOT_EXCEEDED",
        "NO_ORPHANED_SALE_ITEMS"] → weightOf r.name = 5) := by
  have hw : (0 : ℝ) ≤ (weightOf r.name : ℝ) := by
    exact_mod_cast weightOf_nonneg r.name
  have hded := totalDeduction_nonneg rs
  refine ⟨?_, ?_, ?_, deductionFor_nil r, ?_, min_le_left _ _, ?_, ?_, ?_, ?_, ?_, ?_, ?_, ?_⟩
  · unfold computeDriftScore
    exact max_zero_round_comm ((100 : ℝ) - totalDeduction rs)
  · exact le_max_left 0 _
  · have h1 : round ((100 : ℝ) - totalDeduction rs) ≤ round ((100 : ℝ)) :=
      round_mono_of_le (by linarith)
    have h2 : round ((100 : ℝ)) = 100 := by
      norm_num [round_eq]
    exact max_le (by norm_num) (by rw [h2] at h1; exact_mod_cast h1)
  · intro h1
    have hlog : Real.logb 10 2 ≤ 1 := by
      have h10 : Real.logb 10 10 = 1 := Real.logb_self_eq_one (by norm_num)
      have := Real.logb_le_logb_of_le (b := 10) (by norm_num)
        (x := 2) (y := 10) (by norm_num) (by norm_num)
      linarith
    have hmul : (weightOf r.name : ℝ) * Real.logb 10 2 ≤ (weightOf r.name : ℝ) :=
      mul_le_of_le_one_right hw hlog
    have h2 : ((r.violations.length : ℝ) + 1) = 2 := by
      rw [h1]
      norm_num
    unfold deductionFor
    rw [h2, min_eq_right hmul]
  · decide
  · decide
  · decide
  · decide
  · decide
  · decide
  · decide
  · intro h
    simp only [List.mem_cons, List.mem_singleton, not_or] at h
    obtain ⟨n1, n2, n3, n4, n5, n6, n7, _⟩ := h
    simp [weightOf, n1, n2, n3, n4, n5, n6, n7]

/-- When every check throws, the loop adds no deduction at all. -/
theorem totalDeduction_allThrown (invs : List InvariantSpec) :
    totalDeduction (allThrown invs) = 0 := by
  suffices h : ∀ (invs : List InvariantSpec) (acc : ℝ),
      (allThrown invs).foldl
        (fun acc r => if r.passed then acc else acc + deductionFor r) acc = acc by
    exact h invs 0
  intro invs
  induction invs with
  | nil => intro acc; simp [allThrown]
  | cons inv invs ih =>
      intro acc
      have hz : deductionFor (runInvariant inv none false) = 0 :=
        deductionFor_nil _ rfl
      have hp : (runInvariant inv none false).passed = false := rfl
      rw [show allThrown (inv :: invs) = runInvariant inv none false :: allThrown invs
            from rfl,
        List.foldl_cons, if_neg (by simp [hp]), hz, add_zero]
      exact ih acc

/-- C10: a throwing `check` yields a synthetic failed result with an empty
violations list; such a result deducts `w·log₁₀(0+1) = 0`, so when every
catalogue check throws the persisted drift score is still 100, while every
one of those failed results is forwarded to the incident manager. -/
theorem thrown_checks_deduct_nothing (invs : List InvariantSpec) :
    (∀ r ∈ allThrown invs, r.passed = false ∧ r.violations = [])
    ∧ computeDriftScore (allThrown invs) = 100
    ∧ failedResults (allThrown invs) = allThrown invs := by
  refine ⟨?_, ?_, ?_⟩
  · intro r hr
    simp only [allThrown, List.mem_map] at hr
    obtain ⟨inv, _, rfl⟩ := hr
    exact ⟨rfl, rfl⟩
  · unfold computeDriftScore
    rw [totalDeduction_allThrown]
    norm_num [round_eq]
  · unfold failedResults
    rw [List.filter_eq_self]
    intro r hr
    simp only [allThrown, List.mem_map] at hr
    obtain ⟨inv, _, rfl⟩ := hr
    rfl

end InvariantEngine

namespace HealthScore

/-- C3 (amended): a freshly computed score below 40 with safe mode off
emits the CRITICAL alert and auto-engages safe mode with a reason
beginning `"Health score F"`; for any score of 40 or above (in
particular 40–49) the alert block does not run at all, so no CRITICAL
alert is emitted and safe mode is not auto-engaged. -/
theorem safe_mode_autoengage_below_40 (env : HealthEnv) :
    ((compute env).score < 40 ∧ env.safeMode = false →
      (compute env).criticalAlert = true
      ∧ (compute env).engagedReason = some healthFReason
      ∧ ∃ suffix, healthFReason = "Health score F" ++ suffix)
    ∧ (40 ≤ (compute env).score →
      (compute env).criticalAlert = false ∧ (compute env).engagedReason = none) := by
  have hsc : (compute env).score = healthScoreOf env := rfl
  have hca : (compute env).criticalAlert
      = (decide (healthScoreOf env < 40) && !env.safeMode) := rfl
  have her : (compute env).engagedReason
      = (if (decide (healthScoreOf env < 40) && !env.safeMode)
            && decide (gradeOf (healthScoreOf env) = .F)
         then some healthFReason else none) := rfl
  constructor
  · rintro ⟨h1, h2⟩
    rw [hsc] at h1
    have hg : gradeOf (healthScoreOf env) = .F := by
      unfold gradeOf
      split_ifs <;> first | rfl | omega
    refine ⟨?_, ?_, ?_⟩
    · rw [hca, h2]
      simp [h1]
    · rw [her, h2]
      simp [h1, hg]
    · exact ⟨" — auto-engaged by health engine", rfl⟩
  · intro h
    rw [hsc] at h
    have h1 : ¬ healthScoreOf env < 40 := not_lt.mpr h
    refine ⟨?_, ?_⟩
    · rw [hca]
      simp [h1]
    · rw [her]
      simp [h1]

/-- `scoreIntegrity` stays within `[0, 30]` for drift scores in `[0, 100]`. -/
theorem scoreIntegrity_bounds {d : ℚ} (h0 : 0 ≤ d) (h1 : d ≤ 100) :
    0 ≤ scoreIntegrity d ∧ scoreIntegrity d ≤ 30 := by
  unfold scoreIntegrity
  constructor
  · have hx : (0 : ℚ) ≤ d / 100 * 30 :=
      mul_nonneg (div_nonneg h0 (by norm_num)) (by norm_num)
    have := round_mono_of_le hx
    simpa using this
  · have hx : d / 100 * 30 ≤ 30 := by linarith
    have h2 := round_mono_of_le hx
    have h3 : round ((30 : ℚ)) = 30 := by norm_num [round_eq]
    rw [h3] at h2
    exact h2

/-- `scoreIncidents` stays within `[0, 20]`. -/
theorem scoreIncidents_bounds (p1 p2 p3 p4 : Nat) :
    0 ≤ scoreIncidents p1 p2 p3 p4 ∧ scoreIncidents p1 p2 p3 p4 ≤ 20 := by
  unfold scoreIncidents
  refine ⟨le_max_left _ _, max_le (by norm_num) ?_⟩
  omega

/-- C6: the persisted health score is the sum of the six components, each
component lies within `[0, max]` (integrity 30, errorRate 20, latency 15,
incidents 20, backup 10, migrations 5) including the fallback values used
when a component query fails, hence `0 ≤ score ≤ 100`; the grade bands are
A ≥ 90, B ≥ 75, C ≥ 60, D ≥ 40, else F. -/
theorem health_score_components_and_grade (env : HealthEnv)
    (h0 : 0 ≤ env.driftScore) (h1 : env.driftScore ≤ 100) :
    (compute env).score = (compute env).integrity + (compute env).errorRate
      + (compute env).latency + (compute env).incidents + (compute env).backup
      + (compute env).migrations
    ∧ 0 ≤ (compute env).integrity ∧ (compute env).integrity ≤ 30
    ∧ 0 ≤ (compute env).errorRate ∧ (compute env).errorRate ≤ 20
    ∧ 0 ≤ (compute env).latency ∧ (compute env).latency ≤ 15
    ∧ 0 ≤ (compute env).incidents ∧ (compute env).incidents ≤ 20
    ∧ 0 ≤ (compute env).backup ∧ (compute env).backup ≤ 10
    ∧ 0 ≤ (compute env).migrations ∧ (compute env).migrations ≤ 5
    ∧ 0 ≤ (compute env).score ∧ (compute env).score ≤ 100
    ∧ ((compute env).grade = .A ↔ 90 ≤ (compute env).score)
    ∧ ((compute env).grade = .B ↔ 75 ≤ (compute env).score ∧ (compute env).score < 90)
    ∧ ((compute env).grade = .C ↔ 60 ≤ (compute env).score ∧ (compute env).score < 75)
    ∧ ((compute env).grade = .D ↔ 40 ≤ (compute env).score ∧ (compute env).score < 60)
    ∧ ((compute env).grade = .F ↔ (compute env).score < 40) := by
  have hint : 0 ≤ (compute env).integrity ∧ (compute env).integrity ≤ 30 := by
    show 0 ≤ integrityComponent env ∧ integrityComponent env ≤ 30
    unfold integrityComponent
    split_ifs
    · norm_num
    · exact scoreIntegrity_bounds h0 h1
  have herr : 0 ≤ (compute env).errorRate ∧ (compute env).errorRate ≤ 20 := by
    show 0 ≤ errorRateComponent env ∧ errorRateComponent env ≤ 20
    unfold errorRateComponent scoreErrorRate
    split_ifs <;> norm_num
  have hlat : 0 ≤ (compute env).latency ∧ (compute env).latency ≤ 15 := by
    show 0 ≤ latencyComponent env ∧ latencyComponent env ≤ 15
    unfold latencyComponent scoreLatency
    split_ifs <;> norm_num
  have hinc : 0 ≤ (compute env).incidents ∧ (compute env).incidents ≤ 20 := by
    show 0 ≤ incidentsComponent env ∧ incidentsComponent env ≤ 20
    unfold incidentsComponent
    split_ifs
    · norm_num
    · exact scoreIncidents_bounds env.p1 env.p2 env.p3 env.p4
  have hbak : 0 ≤ (compute env).backup ∧ (compute env).backup ≤ 10 := by
    show 0 ≤ backupComponent env ∧ backupComponent env ≤ 10
    unfold backupComponent scoreBackup
    split_ifs
    · norm_num
    · rcases env.backupAgeHrs with _ | age <;> [norm_num; skip]
      dsimp only
      split_ifs <;> norm_num
  have hmig : 0 ≤ (compute env).migrations ∧ (compute env).migrations ≤ 5 := by
    show 0 ≤ migrationsComponent env ∧ migrationsComponent env ≤ 5
    unfold migrationsComponent scoreMigrations
    split_ifs <;> norm_num
  have hsum : (compute env).score = (compute env).integrity + (compute env).errorRate
      + (compute env).latency + (compute env).incidents + (compute env).backup
      + (compute env).migrations := rfl
  have hs0 : 0 ≤ (compute env).score := by
    rw [hsum]
    have := hint.1
    have := herr.1
    have := hlat.1
    have := hinc.1
    have := hbak.1
    have := hmig.1
    omega
  have hs100 : (compute env).score ≤ 100 := by
    rw [hsum]
    have := hint.2
    have := herr.2
    have := hlat.2
    have := hinc.2
    have := hbak.2
    have := hmig.2
    omega
  have hgr : (compute env).grade = gradeOf ((compute env).score) := rfl
  refine ⟨hsum, hint.1, hint.2, herr.1, herr.2, hlat.1, hlat.2, hinc.1, hinc.2,
    hbak.1, hbak.2, hmig.1, hmig.2, hs0, hs100, ?_, ?_, ?_, ?_, ?_⟩ <;>
    · rw [hgr]
      unfold gradeOf
      split_ifs <;> simp_all <;> omega

/-- Witness for C6 at the concrete healthy environment `sampleEnv`. -/
theorem health_score_components_and_grade_witness :
    (compute sampleEnv).score = (compute sampleEnv).integrity + (compute sampleEnv).errorRate
      + (compute sampleEnv).latency + (compute sampleEnv).incidents + (compute sampleEnv).backup
      + (compute sampleEnv).migrations
    ∧ 0 ≤ (compute sampleEnv).integrity ∧ (compute sampleEnv).integrity ≤ 30
    ∧ 0 ≤ (compute sampleEnv).errorRate ∧ (compute sampleEnv).errorRate ≤ 20
    ∧ 0 ≤ (compute sampleEnv).latency ∧ (compute sampleEnv).latency ≤ 15
    ∧ 0 ≤ (compute sampleEnv).incidents ∧ (compute sampleEnv).incidents ≤ 20
    ∧ 0 ≤ (compute sampleEnv).backup ∧ (compute sampleEnv).backup ≤ 10
    ∧ 0 ≤ (compute sampleEnv).migrations ∧ (compute sampleEnv).migrations ≤ 5
    ∧ 0 ≤ (compute sampleEnv).score ∧ (compute sampleEnv).score ≤ 100
    ∧ ((compute sampleEnv).grade = .A ↔ 90 ≤ (compute sampleEnv).score)
    ∧ ((compute sampleEnv).grade = .B ↔ 75 ≤ (compute sampleEnv).score ∧ (compute sampleEnv).score < 90)
    ∧ ((compute sampleEnv).grade = .C ↔ 60 ≤ (compute sampleEnv).score ∧ (compute sampleEnv).score < 75)
    ∧ ((compute sampleEnv).grade = .D ↔ 40 ≤ (compute sampleEnv).score ∧ (compute sampleEnv).score < 60)
    ∧ ((compute sampleEnv).grade = .F ↔ (compute sampleEnv).score < 40) :=
  health_score_components_and_grade sampleEnv (by norm_num [sampleEnv])
    (by norm_num [sampleEnv])

end HealthScore

namespace SecurityEngine

/-- `auditLinkOk` only looks at the head's `row_hash`, so heads with equal
hashes are interchangeable. -/
theorem auditLink_head_congr {a b : AuditRow} (h : a.row_hash = b.row_hash)
    (l : List AuditRow) :
    List.Chain' auditLinkOk (a :: l) ↔ List.Chain' auditLinkOk (b :: l) := by
  cases l with
  | nil => simp
  | cons c l => simp [List.chain'_cons, auditLinkOk, h]

/-- The loop from a pending hash `p` accepts exactly the lists that chain
from a row whose hash is `p`. -/
theorem verifyFrom_valid_iff :
    ∀ (l : List AuditRow) (p : String),
      (verifyFrom (some p) l).valid = true
        ↔ List.Chain' auditLinkOk (phantom p :: l)
  | [], p => by simp [verifyFrom]
  | row :: rest, p => by
      by_cases hbad : p ≠ "" ∧ row.prev_hash ≠ p
      · have hnc : ¬ List.Chain' auditLinkOk (phantom p :: row :: rest) := by
          rw [List.chain'_cons]
          rintro ⟨hlink, -⟩
          exact hbad.2 (hlink hbad.1)
        simp [verifyFrom, hbad, brokenResult, hnc]
      · have hlink : auditLinkOk (phantom p) row := by
          intro hne
          by_contra hne2
          exact hbad ⟨hne, hne2⟩
        have hstep : verifyFrom (some p) (row :: rest)
            = verifyFrom (some row.row_hash) rest := by
          simp [verifyFrom, hbad]
        rw [hstep, verifyFrom_valid_iff rest row.row_hash,
          auditLink_head_congr (a := phantom row.row_hash) (b := row) rfl rest,
          List.chain'_cons]
        simp [hlink]

/-- A pass that finds no broken link returns the bare `{ valid: true }`. -/
theorem verifyFrom_eq_of_valid :
    ∀ (l : List AuditRow) (prev : Option String),
      (verifyFrom prev l).valid = true →
      verifyFrom prev l = { valid := true, brokenAt := none, incident := none }
  | [], _, _ => rfl
  | row :: rest, none, h =>
      verifyFrom_eq_of_valid rest (some row.row_hash) (by simpa [verifyFrom] using h)
  | row :: rest, some p, h => by
      by_cases hbad : p ≠ "" ∧ row.prev_hash ≠ p
      · simp [verifyFrom, hbad, brokenResult] at h
      · have h' := verifyFrom_eq_of_valid rest (some row.row_hash)
          (by simpa [verifyFrom, hbad] using h)
        simpa [verifyFrom, hbad] using h'

/-- An invalid pass stops at the first broken link and reports it. -/
theorem verifyFrom_invalid :
    ∀ (l : List AuditRow) (p : String),
      (verifyFrom (some p) l).valid = false →
      ∃ pre a b post,
        phantom p :: l = pre ++ a :: b :: post
        ∧ List.Chain' auditLinkOk (pre ++ [a])
        ∧ a.row_hash ≠ "" ∧ b.prev_hash ≠ a.row_hash
        ∧ verifyFrom (some p) l = brokenResult b a.row_hash
  | [], p, h => by simp [verifyFrom] at h
  | row :: rest, p, h => by
      by_cases hbad : p ≠ "" ∧ row.prev_hash ≠ p
      · refine ⟨[], phantom p, row, rest, rfl, by simp, hbad.1, hbad.2, ?_⟩
        simp [verifyFrom, hbad, phantom]
      · have hlink : auditLinkOk (phantom p) row := by
          intro hne
          by_contra hne2
          exact hbad ⟨hne, hne2⟩
        have hstep : verifyFrom (some p) (row :: rest)
            = verifyFrom (some row.row_hash) rest := by
          simp [verifyFrom, hbad]
        have h' : (verifyFrom (some row.row_hash) rest).valid = false := by
          rw [← hstep]
          exact h
        obtain ⟨pre, a, b, post, heq, hchain, ha, hb, hres⟩ :=
          verifyFrom_invalid rest row.row_hash h'
        cases pre with
        | nil =>
            simp only [List.nil_append] at heq
            injection heq with h1 h2
            refine ⟨[phantom p], row, b, post, by simp [h2], ?_, ?_, ?_, ?_⟩
            · simp [List.chain'_cons, hlink]
            · rw [← h1] at ha
              simpa [phantom] using ha
            · rw [← h1] at hb
              simpa [phantom] using hb
            · rw [← h1] at hres
              rw [hstep]
              simpa [phantom] using hres
        | cons x pre' =>
            simp only [List.cons_append] at heq
            injection heq with h1 h2
            refine ⟨phantom p :: row :: pre', a, b, post, by simp [h2], ?_, ha, hb, ?_⟩
            · have hx : x.row_hash = row.row_hash := by
                rw [← h1]
                rfl
              have hback := (auditLink_head_congr (a := x) (b := row) hx (pre' ++ [a])).mp
                (by simpa [List.cons_append] using hchain)
              simp only [List.cons_append, List.chain'_cons]
              exact ⟨hlink, hback⟩
            · rw [hstep]
              exact hres

/-- C4 (amended): the verifier checks, for each row after the first, that
its `prev_hash` equals the previous row's `row_hash` (skipping the
comparison when the previous hash is falsy); the first row itself is never
compared against any sentinel since its `lag` is `NULL`.  A fully chained
prefix returns `{valid:true}` with no incident; at the first broken link
the verifier returns `{valid:false, brokenAt}` and creates a P1
`AUDIT LOG TAMPER DETECTED` incident carrying the broken row's id, the
expected and the actual hash.  No exception is thrown: the function is
total. -/
theorem verifyAuditChain_characterisation (limit : Nat) (rows : List AuditRow) :
    ((verifyAuditChain limit rows).valid = true
      ↔ List.Chain' auditLinkOk (rows.take limit))
    ∧ ((verifyAuditChain limit rows).valid = true →
        verifyAuditChain limit rows
          = { valid := true, brokenAt := none, incident := none })
    ∧ ((verifyAuditChain limit rows).valid = false →
        ∃ pre a b post,
          rows.take limit = pre ++ a :: b :: post
          ∧ List.Chain' auditLinkOk (pre ++ [a])
          ∧ a.row_hash ≠ "" ∧ b.prev_hash ≠ a.row_hash
          ∧ verifyAuditChain limit rows = brokenResult b a.row_hash) := by
  unfold verifyAuditChain
  generalize rows.take limit = t
  cases t with
  | nil =>
      refine ⟨by simp [verifyFrom], fun _ => rfl, fun h => by simp [verifyFrom] at h⟩
  | cons r rest =>
      have hstep : verifyFrom none (r :: rest) = verifyFrom (some r.row_hash) rest := by
        simp [verifyFrom]
      rw [hstep]
      refine ⟨?_, verifyFrom_eq_of_valid rest (some r.row_hash), fun h => ?_⟩
      · rw [verifyFrom_valid_iff rest r.row_hash]
        exact auditLink_head_congr (a := phantom r.row_hash) (b := r) rfl rest
      · obtain ⟨pre, a, b, post, heq, hchain, ha, hb, hres⟩ :=
          verifyFrom_invalid rest r.row_hash h
        cases pre with
        | nil =>
            simp only [List.nil_append] at heq
            injection heq with h1 h2
            refine ⟨[], r, b, post, by simp [h2], by simp, ?_, ?_, ?_⟩
            · rw [← h1] at ha
              simpa [phantom] using ha
            · rw [← h1] at hb
              simpa [phantom] using hb
            · rw [← h1] at hres
              simpa [phantom] using hres
        | cons x pre' =>
            simp only [List.cons_append] at heq
            injection heq with h1 h2
            refine ⟨r :: pre', a, b, post, by simp [h2], ?_, ha, hb, hres⟩
            have hx : x.row_hash = r.row_hash := by
              rw [← h1]
              rfl
            have hback := (auditLink_head_congr (a := x) (b := r) hx (pre' ++ [a])).mp
              (by simpa [List.cons_append] using hchain)
            simpa [List.cons_append] using hback

end SecurityEngine
